import Mathlib

/-!
Verification of the script-execution service in `main.go` (gin + gopher-lua).

The Go source is shallowly embedded: pure helpers become Lean functions,
the process-wide maps (`scriptCache`, `scriptStatuses`, `visitors`) become
explicit state passed through the functions, and the effects the Go code
performs through external libraries (the Lua evaluator `L.DoString`, the
network, the filesystem) become oracle parameters whose possible outcomes
mirror the library contracts.  Machine behaviour relevant to the claims is
kept: a Go type assertion `v.(string)` on a non-string faults, an
assignment to a nil map faults, a panic raised inside a Lua-called Go
function is recovered by gopher-lua's `PCall` and aborts the script run.
-/

namespace GinLua

/-- JSON-decoded Go `interface` values, as produced by `c.ShouldBindJSON`
into a `map[string]interface` in `main.go`. -/
inductive JValue : Type
  | str (s : String)
  | num (n : Int)
  | boolean (b : Bool)
  | null
  deriving DecidableEq, Repr

/-- Go's type assertion `v.(string)` (main.go line 64): yields the string
when the dynamic type is string, otherwise the assertion faults (`none`). -/
def goAssertString : JValue → Option String
  | .str s => some s
  | _ => none

/-- Helper `mapToTable` (main.go lines 61-67): converts the JSON payload map to a
Lua table via `lua.LString(v.(string))` on every value.  `none` models the
run-time fault of the type assertion on a non-string value; on success the
resulting table is the list of string pairs. -/
def mapToTable : List (String × JValue) → Option (List (String × String))
  | [] => some []
  | (k, v) :: rest =>
    match goAssertString v with
    | none => none
    | some s =>
      match mapToTable rest with
      | none => none
      | some tbl => some ((k, s) :: tbl)

/-- Lua values as far as the embedding needs them (gopher-lua `LValue`). -/
inductive LValue : Type
  | lnil
  | lstr (s : String)
  | lnum (n : Int)
  deriving DecidableEq, Repr

/-- gopher-lua's `LValue.String()` stringification; `LNil.String()` is
`"nil"`. -/
def LValue.luaToString : LValue → String
  | .lnil => "nil"
  | .lstr s => s
  | .lnum n => toString n

/-- Reading `L.Get (-1)` on the value stack left by `DoString` (main.go line 222):
the top of the stack, or `LNil` when the stack is empty (the script
produced no final value).  The head of the list is the stack top. -/
def luaGetTop (stack : List LValue) : LValue :=
  stack.headD .lnil

/-- The script cache `scriptCache : map[string]string` (main.go line 29). -/
def Cache : Type := String → Option String

/-- The backing filesystem as seen by `ioutil.ReadFile`: `none` is a read
error (absent file), `some` the file's bytes as a string. -/
def FS : Type := String → Option String

/-- Pointwise update of a string-keyed map. -/
def mapUpd {α : Type} (m : String → Option α) (k : String) (v : α) :
    String → Option α :=
  fun x => if x = k then some v else m x

/-- Outcome of the cache lookup / file read at the top of `runLuaScript`
(main.go lines 70-88): the content delivered (or the read error), the cache
afterwards, and how many backing-storage reads were performed. -/
structure LoadResult : Type where
  content : Except String String
  cache : Cache
  reads : Nat

/-- The ScriptStore part of `runLuaScript` (main.go lines 70-88): on cache
hit return the cached content with no file read; on miss read the file
once, store it in the cache and return it; a failed read is propagated. -/
def loadScript (cache : Cache) (fs : FS) (filename : String) : LoadResult :=
  match cache filename with
  | some content => ⟨.ok content, cache, 0⟩
  | none =>
    match fs filename with
    | none => ⟨.error ("open " ++ filename ++ ": no such file or directory"), cache, 1⟩
    | some bytes => ⟨.ok bytes, mapUpd cache filename bytes, 1⟩

/-- Possible outcomes of `L.DoString(content)` for one run, used as an
oracle parameter: the script terminates leaving a value stack, raises a
Lua error (or a recovered Go panic) with a message, or never terminates. -/
inductive EvalOutcome : Type
  | ok (stack : List LValue)
  | err (msg : String)
  | diverges
  deriving DecidableEq, Repr

/-- An evaluation oracle: what `L.DoString` does given the script content
and the bound `payload` table of this execution. -/
def EvalOracle : Type := String → List (String × String) → EvalOutcome

/-- Observable outcome of one `runLuaScript` call:
`ret v` is the pair `(v, nil)`; `failed m` is `("", err)`; `panicked m` is
an unrecovered Go panic escaping the function (the `mapToTable` type
assertion, which runs outside any `PCall`); `hangs` records that the call
never returns — `main.go` evaluates the script with no deadline, watchdog
or cancellation of any kind. -/
inductive RunOutcome : Type
  | ret (value : String)
  | failed (msg : String)
  | panicked (msg : String)
  | hangs
  deriving DecidableEq, Repr

/-- Function `runLuaScript` (main.go lines 69-224): load (and cache) the script,
bind the payload via `mapToTable`, evaluate, and stringify the stack top.
Returns the outcome, the cache afterwards, and the number of backing
file reads performed. -/
def runLuaScript (cache : Cache) (fs : FS) (filename : String)
    (jsonData : List (String × JValue)) (eval : EvalOracle) :
    RunOutcome × Cache × Nat :=
  let r := loadScript cache fs filename
  match r.content with
  | .error e => (.failed e, r.cache, r.reads)
  | .ok content =>
    match mapToTable jsonData with
    | none =>
      (.panicked "interface conversion: interface is not string", r.cache, r.reads)
    | some payloadTbl =>
      match eval content payloadTbl with
      | .diverges => (.hangs, r.cache, r.reads)
      | .err m => (.failed m, r.cache, r.reads)
      | .ok stack => (.ret (luaGetTop stack).luaToString, r.cache, r.reads)

/-! ### The `httpPost` host function (main.go lines 95-145) -/

/-- Result of one call to a Go function registered into the Lua state:
either the values it pushes back to the script (`values`), or a Go panic
(`goPanic`).  gopher-lua's `PCall`, through which `DoString` runs the
script, recovers such a panic and turns it into an error returned by
`DoString` — so a `goPanic` aborts the whole script run. -/
inductive LuaCallResult : Type
  | values (vs : List LValue)
  | goPanic (msg : String)
  deriving DecidableEq, Repr

/-- The body-map construction in `httpPost` (main.go lines 101-104):
`var bodyMap map[string]interface` declares a nil map, and
`body.ForEach` assigns `bodyMap[k.String()] = v.String()` for every entry
of the Lua table.  In Go an assignment to an entry in a nil map panics, so
the fold starts from the nil map (`none`) and any insertion into it
faults; a non-nil map (unreachable from this start) would accumulate. -/
def bodyMapStep (acc : Except String (Option (List (String × String))))
    (kv : String × String) : Except String (Option (List (String × String))) :=
  match acc with
  | .error e => .error e
  | .ok none => .error "assignment to entry in nil map"
  | .ok (some m) => .ok (some (m ++ [kv]))

def luaTableToBodyMap (body : List (String × String)) :
    Except String (Option (List (String × String))) :=
  body.foldl bodyMapStep (.ok none)

/-- Marshalling `json.Marshal` applied to the `bodyMap` variable: a nil Go map
marshals to the JSON text `null`; a non-nil one to an object (its exact
text is irrelevant to the claims, only that marshalling succeeds). -/
def jsonMarshalBodyMap : Option (List (String × String)) → String
  | none => "null"
  | some m => String.join (m.map (fun kv => kv.1 ++ ":" ++ kv.2))

/-- Outcomes of the network stages of `httpPost`/`httpGet`
(`http.NewRequest`, `client.Do`, `ioutil.ReadAll`), as an oracle. -/
inductive NetResult : Type
  | success (body : String)
  | createFailed (msg : String)
  | sendFailed (msg : String)
  | readFailed (msg : String)
  deriving DecidableEq, Repr

/-- A network oracle for POST: given the url and the marshalled JSON body,
which stage fails (if any) and with what message, or the response body. -/
def PostOracle : Type := String → String → NetResult

/-- The `httpPost` closure (main.go lines 95-145) called with a url and
the entries of the Lua body table.  It first folds the table into the
(nil) `bodyMap` — panicking on any non-empty table — then marshals the
map and performs the POST; every stage failure is pushed back to the
script as the pair `(nil, message)`. -/
def httpPost (net : PostOracle) (url : String)
    (body : List (String × String)) : LuaCallResult :=
  match luaTableToBodyMap body with
  | .error m => .goPanic m
  | .ok bodyMap =>
    let bodyJson := jsonMarshalBodyMap bodyMap
    match net url bodyJson with
    | .createFailed e => .values [.lnil, .lstr ("Failed to create request: " ++ e)]
    | .sendFailed e => .values [.lnil, .lstr ("Failed to send request: " ++ e)]
    | .readFailed e => .values [.lnil, .lstr ("Failed to read response: " ++ e)]
    | .success b => .values [.lstr b]

/-! ### `setHeader` and `httpGet` (main.go lines 148-195) -/

/-- The per-execution Lua global `headers` table, as its entry list. -/
abbrev HeaderTable : Type := List (String × String)

/-- Assignment `headers.RawSetString key value` (main.go line 155): replace the value
at an existing key, else append a new entry — Lua table assignment. -/
def rawSetString (tbl : HeaderTable) (k v : String) : HeaderTable :=
  match tbl with
  | [] => [(k, v)]
  | (k0, v0) :: rest =>
    if k0 = k then (k, v) :: rest else (k0, v0) :: rawSetString rest k v

/-- Reading the `headers` table at a key (first entry wins; keys built by
`rawSetString` from the empty table are distinct). -/
def tblLookup : HeaderTable → String → Option String
  | [], _ => none
  | (k0, v0) :: rest, k => if k0 = k then some v0 else tblLookup rest k

/-- A valid MIME header field byte, as in Go's `textproto` token table:
ASCII letters and digits plus the symbols of the table.  Go treats any
other byte (spaces, control bytes, non-ASCII) as invalid. -/
def isTokenChar (c : Char) : Bool :=
  c.isAlphanum ||
    c ∈ ['!', '#', '$', '%', '&', Char.ofNat 39, '*', '+', '-', '.',
         '^', '_', Char.ofNat 96, '|', '~']

/-- The case-folding loop of `textproto.CanonicalMIMEHeaderKey`: the
first character and every character following a hyphen is upper-cased,
every other character lower-cased (ASCII case maps, as in Go). -/
def canonChars : Bool → List Char → List Char
  | _, [] => []
  | up, c :: rest =>
    (if up then c.toUpper else c.toLower) :: canonChars (c = '-') rest

/-- Go's `textproto.CanonicalMIMEHeaderKey`: canonicalize the case of a
header key (`x-a` becomes `X-A`); a key containing any invalid header
field byte is returned without modification. -/
def canonicalMIMEHeaderKey (s : String) : String :=
  if s.data.all isTokenChar then ⟨canonChars true s.data⟩ else s

/-- One `req.Header.Set` call on the outbound request's header map: Go's
`http.Header.Set` stores the value under the MIME-canonical form of the
key (`textproto.CanonicalMIMEHeaderKey`), replacing any existing value
there. -/
def headerSet (h : String → Option String) (k v : String) :
    String → Option String :=
  fun x => if x = canonicalMIMEHeaderKey k then some v else h x

/-- The canonical request-header names the entries of a `headers` table
produce through `req.Header.Set`. -/
def canonTblKeys (t : HeaderTable) : List String :=
  t.map (fun kv => canonicalMIMEHeaderKey kv.1)

/-- The header loop of `httpGet` (main.go lines 174-176): starting from
the request's empty header map, `headers.ForEach` sets every entry of the
current `headers` table on the request. -/
def buildRequestHeaders (tbl : HeaderTable) : String → Option String :=
  tbl.foldl (fun h kv => headerSet h kv.1 kv.2) (fun _ => none)

/-- The `headers` table produced by a sequence of `setHeader(key, value)`
calls of one execution, starting from the fresh table installed by
`L.SetGlobal("headers", L.NewTable())` (main.go line 198). -/
def applySetHeaders (ops : List (String × String)) : HeaderTable :=
  ops.foldl (fun t kv => rawSetString t kv.1 kv.2) []

/-- A network oracle for GET: given the url and the request's header map
(as built by the header loop), the stage outcome. -/
def GetOracle : Type := String → (String → Option String) → NetResult

/-- The `httpGet` closure (main.go lines 159-195): build the GET request,
set every entry of the current `headers` table on it, perform it, and push
the body — or `(nil, message)` on any stage failure. -/
def httpGet (net : GetOracle) (headers : HeaderTable) (url : String) :
    LuaCallResult :=
  match net url (buildRequestHeaders headers) with
  | .createFailed e => .values [.lnil, .lstr ("Failed to create request: " ++ e)]
  | .sendFailed e => .values [.lnil, .lstr ("Failed to do request: " ++ e)]
  | .readFailed e => .values [.lnil, .lstr ("Failed to read response body: " ++ e)]
  | .success b => .values [.lstr b]

/-- The key list of a `headers` table. -/
def tblKeys (t : HeaderTable) : List String := t.map Prod.fst

/-! ### The job map and the `/status/:id` and async handlers -/

/-- Record `ScriptStatus` (main.go lines 20-24). -/
structure ScriptStatus : Type where
  finished : Bool
  result : String
  error : Option String
  deriving DecidableEq, Repr

/-- The process-wide `scriptStatuses` map (main.go line 26). -/
def JobMap : Type := String → Option ScriptStatus

def emptyJobMap : JobMap := fun _ => none

/-- The job-record creation of the async handler (main.go lines 294-296):
`scriptStatuses[id] = &ScriptStatus{Finished: false}` — performed before
the goroutine is started and before the id is returned. -/
def submitJob (m : JobMap) (id : String) : JobMap :=
  mapUpd m id ⟨false, "", none⟩

/-- What `/status/:id` answers (main.go lines 249-270). -/
inductive PollResponse : Type
  | notFound
  | pending
  | done (result : String) (error : Option String)
  deriving DecidableEq, Repr

/-- The `/status/:id` handler (main.go lines 249-270): 404 for an unknown
id; otherwise `finished:false`, or `finished:true` with result and error. -/
def pollJob (m : JobMap) (id : String) : PollResponse :=
  match m id with
  | none => .notFound
  | some st => if st.finished then .done st.result st.error else .pending

/-- The individual mutations `main.go` ever applies to `scriptStatuses`,
each one map access wide: the handler's insert of a fresh pending record
(line 294), and the completion goroutine's three separate field writes
(lines 302-305): `Finished = true`, then `Result = result`, then — only
when the run failed — `Error = err`.  No step deletes an entry. -/
inductive JobStep : JobMap → JobMap → Prop
  | submit (m : JobMap) (id : String) : JobStep m (submitJob m id)
  | setFinished (m : JobMap) (id : String) (st : ScriptStatus)
      (h : m id = some st) :
      JobStep m (mapUpd m id ⟨true, st.result, st.error⟩)
  | setResult (m : JobMap) (id : String) (st : ScriptStatus) (r : String)
      (h : m id = some st) :
      JobStep m (mapUpd m id ⟨st.finished, r, st.error⟩)
  | setError (m : JobMap) (id : String) (st : ScriptStatus) (e : String)
      (h : m id = some st) :
      JobStep m (mapUpd m id ⟨st.finished, st.result, some e⟩)

/-! ### Filename validation and the two POST handlers -/

/-- Strip trailing slash characters (the first loop of `filepath.Base`). -/
def stripTrailing (l : List Char) : List Char :=
  (l.reverse.dropWhile (fun c => c = '/')).reverse

/-- Everything after the last slash of a slash-trimmed path. -/
def lastComponent (l : List Char) : List Char :=
  (l.reverse.takeWhile (fun c => c ≠ '/')).reverse

/-- Go's `filepath.Base` on a Unix host: `"."` for the empty path, strip
trailing slashes, take the part after the last slash, and `"/"` when
nothing remains. -/
def filepathBase (s : String) : String :=
  if s.data = [] then "."
  else if lastComponent (stripTrailing s.data) = [] then "/"
  else ⟨lastComponent (stripTrailing s.data)⟩

/-- The filename check of both POST handlers (main.go lines 277 and 318):
the request proceeds iff `filepath.Base(filename) == filename`. -/
def validFilename (name : String) : Bool :=
  filepathBase name = name

/-- A handler's observable response. `hangs` and `panicked` record a
request whose handler never writes a response or whose goroutine panics. -/
inductive HandlerResp : Type
  | badRequest (msg : String)
  | okBody (body : String)
  | hangs
  | panicked (msg : String)
  deriving DecidableEq, Repr

/-- The synchronous `POST /runLuaFile/:filename` handler (main.go lines
313-339): reject an unsafe filename, reject unparseable JSON, otherwise
run the script and answer 200 with the result or 400 with the error.
Returns the response, the script cache afterwards, and the number of
backing file reads performed while serving the request. -/
def runLuaFileHandler (cache : Cache) (fs : FS) (name : String)
    (payload : Option (List (String × JValue))) (eval : EvalOracle) :
    HandlerResp × Cache × Nat :=
  if validFilename name = false then (.badRequest "Invalid filename", cache, 0)
  else
    match payload with
    | none => (.badRequest "Invalid JSON", cache, 0)
    | some jsonData =>
      match runLuaScript cache fs name jsonData eval with
      | (.ret v, c, n) => (.okBody v, c, n)
      | (.failed e, c, n) => (.badRequest e, c, n)
      | (.panicked e, c, n) => (.panicked e, c, n)
      | (.hangs, c, n) => (.hangs, c, n)

/-- The asynchronous `POST /runLuaFileAsync/:filename` handler (main.go
lines 272-311) up to the point where it answers: reject an unsafe
filename or bad JSON, else create the pending job record and answer 200
with the fresh id.  The goroutine it spawns mutates the job map later,
through the `JobStep` transitions. -/
def runLuaFileAsyncHandler (jobs : JobMap) (name : String)
    (payload : Option (List (String × JValue))) (id : String) :
    HandlerResp × JobMap :=
  if validFilename name = false then (.badRequest "Invalid filename", jobs)
  else
    match payload with
    | none => (.badRequest "Invalid JSON", jobs)
    | some _ => (.okBody id, submitJob jobs id)

/-! ### The per-client rate limiter (main.go lines 38-58, 240-247) -/

/-- A `rate.Limiter` of `golang.org/x/time/rate`, as its observable state:
refill rate (tokens/second), burst (capacity), current tokens and the
time of the last consuming update, with time measured in seconds as a
rational. -/
structure GoLimiter : Type where
  limit : ℚ
  burst : ℚ
  tokens : ℚ
  last : ℚ
  deriving DecidableEq, Repr

/-- The limiter's `advance`: tokens accumulated by `now`, capped at the
burst. -/
def advanceTokens (l : GoLimiter) (now : ℚ) : ℚ :=
  min l.burst (l.tokens + (now - l.last) * l.limit)

/-- Call `limiter.Allow()` at time `now` (x/time/rate `AllowN(now, 1)`): refill
up to `now`; when at least one token is available consume one and allow,
otherwise deny and leave the limiter unchanged. -/
def allow (l : GoLimiter) (now : ℚ) : Bool × GoLimiter :=
  let t := advanceTokens l now
  if 1 ≤ t then (true, ⟨l.limit, l.burst, t - 1, now⟩)
  else (false, l)

/-- Function `addVisitor` (main.go lines 38-45): `rate.NewLimiter(1, 3)` — refill
rate 1 token/second, burst 3.  A fresh `x/time/rate` limiter behaves as
full at its first use, so the limiter created on first sight of a client
at time `t0` carries 3 tokens. -/
def addVisitor (t0 : ℚ) : GoLimiter :=
  ⟨1, 3, 3, t0⟩

/-! ## Helper lemmas -/

theorem bodyMapStep_foldl_error (l : List (String × String)) (e : String) :
    l.foldl bodyMapStep (.error e) = .error e := by
  induction l with
  | nil => rfl
  | cons x xs ih => simpa [bodyMapStep] using ih

theorem lastComponent_no_slash (l : List Char) (c : Char)
    (hc : c ∈ lastComponent l) : c ≠ '/' := by
  unfold lastComponent at hc
  rw [List.mem_reverse] at hc
  have h := List.mem_takeWhile_imp hc
  simpa using h

theorem filepathBase_shape (s : String) :
    filepathBase s = "." ∨ filepathBase s = "/" ∨
      ∀ c ∈ (filepathBase s).data, c ≠ '/' := by
  unfold filepathBase
  split
  · exact Or.inl rfl
  · split
    · exact Or.inr (Or.inl rfl)
    · exact Or.inr (Or.inr (fun c hc => lastComponent_no_slash _ c hc))

theorem filepathBase_ne_of_slash (s : String) (hs : '/' ∈ s.data)
    (hne : s ≠ "/") : filepathBase s ≠ s := by
  intro heq
  rcases filepathBase_shape s with h | h | h
  · have hdot : s = "." := by rw [← heq, h]
    rw [hdot] at hs
    simp at hs
  · exact hne (by rw [← heq, h])
  · rw [heq] at h
    exact h '/' hs rfl

theorem validFilename_false_of_slash (name : String) (hs : '/' ∈ name.data)
    (hne : name ≠ "/") : validFilename name = false := by
  unfold validFilename
  exact decide_eq_false (filepathBase_ne_of_slash name hs hne)

/-! ## Claims -/

/-- C8: a script name loaded once successfully is afterwards always served
from the cache: every later load returns the very content of the first
load, performs no backing file read, and leaves the cache unchanged —
whatever the backing file holds by then. -/
theorem c8_cached_load_stable (cache : Cache) (fs : FS) (name c : String)
    (h : (loadScript cache fs name).content = .ok c) :
    ∀ fs2 : FS, loadScript (loadScript cache fs name).cache fs2 name =
      ⟨.ok c, (loadScript cache fs name).cache, 0⟩ := by
  intro fs2
  cases hc : cache name with
  | some c0 =>
    have h1 : loadScript cache fs name = ⟨.ok c0, cache, 0⟩ := by
      unfold loadScript; rw [hc]
    rw [h1] at h
    have hc0 : c0 = c := by simpa using h
    subst hc0
    rw [h1]
    unfold loadScript
    simp [hc]
  | none =>
    cases hf : fs name with
    | none =>
      have h1 : loadScript cache fs name =
          ⟨.error ("open " ++ name ++ ": no such file or directory"), cache, 1⟩ := by
        unfold loadScript; rw [hc, hf]
      rw [h1] at h
      simp at h
    | some bytes =>
      have h1 : loadScript cache fs name = ⟨.ok bytes, mapUpd cache name bytes, 1⟩ := by
        unfold loadScript; rw [hc, hf]
      rw [h1] at h
      have hb : bytes = c := by simpa using h
      subst hb
      rw [h1]
      unfold loadScript
      have hu : mapUpd cache name bytes name = some bytes := by simp [mapUpd]
      simp [hu]

/-- Witness for C8: after a first load of `test.lua` from a filesystem
holding `return 1`, a second load against an empty filesystem still
returns `return 1` with zero reads. -/
theorem c8_cached_load_stable_witness :
    loadScript (loadScript (fun _ => none) (fun _ => some "return 1") "test.lua").cache
      (fun _ => none) "test.lua" =
    ⟨.ok "return 1",
     (loadScript (fun _ => none) (fun _ => some "return 1") "test.lua").cache, 0⟩ :=
  c8_cached_load_stable (fun _ => none) (fun _ => some "return 1") "test.lua"
    "return 1" rfl (fun _ => none)

/-- C3 counterexample: a run whose script produces no final value has
`returnValue` `"nil"` (the stringification of `LNil` read by `L.Get(-1)`
from the empty stack), not the empty string the claim states. -/
theorem c3_no_final_value_cex :
    (runLuaScript (fun _ => some "print(1)") (fun _ => none) "test.lua" []
        (fun _ _ => .ok [])).1 = .ret "nil" ∧
    RunOutcome.ret "nil" ≠ RunOutcome.ret "" := by
  exact ⟨rfl, by decide⟩

/-- C3 amended: for every script evaluated to completion, the stack top
(the script's final produced value), stringified by `LValue.String()`,
becomes `returnValue`; a script producing no final value yields the
string `"nil"` — not the empty string. -/
theorem c3_return_value (cache : Cache) (fs : FS) (name content : String)
    (data : List (String × JValue)) (tbl : List (String × String))
    (eval : EvalOracle) (stack : List LValue)
    (hload : (loadScript cache fs name).content = .ok content)
    (hbind : mapToTable data = some tbl)
    (heval : eval content tbl = .ok stack) :
    (runLuaScript cache fs name data eval).1 =
      .ret (luaGetTop stack).luaToString ∧
    (stack = [] → (runLuaScript cache fs name data eval).1 = .ret "nil") := by
  have h1 : (runLuaScript cache fs name data eval).1 =
      .ret (luaGetTop stack).luaToString := by
    simp [runLuaScript, hload, hbind, heval]
  exact ⟨h1, fun hs => by rw [h1, hs]; rfl⟩

/-- Witness for C3 (amended) at a concrete run returning the string `1`. -/
theorem c3_return_value_witness :
    (runLuaScript (fun _ => some "return 1") (fun _ => none) "t.lua" []
        (fun _ _ => .ok [.lstr "1"])).1 =
      .ret (luaGetTop [.lstr "1"]).luaToString ∧
    ([LValue.lstr "1"] = [] →
      (runLuaScript (fun _ => some "return 1") (fun _ => none) "t.lua" []
        (fun _ _ => .ok [.lstr "1"])).1 = .ret "nil") :=
  c3_return_value (fun _ => some "return 1") (fun _ => none) "t.lua" "return 1"
    [] [] (fun _ _ => .ok [.lstr "1"]) [.lstr "1"] rfl rfl rfl

/-- C1: `main.go` evaluates the script with `L.DoString` under no
deadline, watchdog or cancellation of any kind, so a script that never
terminates makes `runLuaScript` hang forever: the run is not aborted and
no `Timeout` error is ever reported (sync response and job completion
both wait on this call). -/
theorem c1_no_timeout_diverging_script_hangs (cache : Cache) (fs : FS)
    (name content : String) (data : List (String × JValue))
    (tbl : List (String × String)) (eval : EvalOracle)
    (hload : (loadScript cache fs name).content = .ok content)
    (hbind : mapToTable data = some tbl)
    (heval : eval content tbl = .diverges) :
    (runLuaScript cache fs name data eval).1 = .hangs := by
  simp [runLuaScript, hload, hbind, heval]

/-- Witness for C1: a concrete run of a looping script hangs. -/
theorem c1_no_timeout_witness :
    (runLuaScript (fun _ => some "while true do end") (fun _ => none)
        "loop.lua" [] (fun _ _ => .diverges)).1 = .hangs :=
  c1_no_timeout_diverging_script_hangs (fun _ => some "while true do end")
    (fun _ => none) "loop.lua" "while true do end" [] []
    (fun _ _ => .diverges) rfl rfl rfl

/-- C4 counterexample: a payload with a non-string value — here the JSON
number 3, a perfectly JSON-decodable value — makes the type assertion
`v.(string)` in `mapToTable` fault, and `runLuaScript` panics instead of
binding the payload. -/
theorem c4_nonstring_value_cex :
    mapToTable [("count", JValue.num 3)] = none ∧
    (runLuaScript (fun _ => some "return 1") (fun _ => none) "t.lua"
        [("count", JValue.num 3)] (fun _ _ => .ok [])).1 =
      .panicked "interface conversion: interface is not string" := by
  exact ⟨rfl, rfl⟩

/-- C4 amended: the payload-binding step `mapToTable` is total only over
payloads all of whose values are strings; for those it succeeds. -/
theorem c4_binding_total_on_string_values (m : List (String × JValue))
    (h : ∀ kv ∈ m, ∃ s, kv.2 = JValue.str s) :
    (mapToTable m).isSome = true := by
  induction m with
  | nil => rfl
  | cons kv rest ih =>
    obtain ⟨s, hs⟩ := h kv (List.mem_cons_self kv rest)
    have hrest := ih (fun kv2 h2 => h kv2 (List.mem_cons_of_mem kv h2))
    obtain ⟨k, v⟩ := kv
    simp only at hs
    subst hs
    cases hmt : mapToTable rest with
    | none => rw [hmt] at hrest; simp at hrest
    | some tbl => simp [mapToTable, goAssertString, hmt]

/-- Witness for C4 (amended): an all-string payload binds. -/
theorem c4_binding_total_witness :
    (mapToTable [("name", JValue.str "Bob")]).isSome = true :=
  c4_binding_total_on_string_values [("name", JValue.str "Bob")]
    (by
      intro kv hkv
      rw [List.mem_singleton] at hkv
      subst hkv
      exact ⟨"Bob", rfl⟩)

/-- C2: `httpPost` declares `var bodyMap map[string]interface` — a nil
map — and then assigns every table entry into it; in Go this panics on
the first entry, so for every non-empty body mapping the call panics
("assignment to entry in nil map") instead of posting, and the recovered
panic aborts the whole script run rather than reaching the script's
error channel. -/
theorem c2_httpPost_panics_on_nonempty_body (net : PostOracle)
    (url k v : String) (rest : List (String × String)) :
    httpPost net url ((k, v) :: rest) =
      .goPanic "assignment to entry in nil map" := by
  have hfold : luaTableToBodyMap ((k, v) :: rest) =
      .error "assignment to entry in nil map" := by
    unfold luaTableToBodyMap
    rw [List.foldl_cons]
    exact bodyMapStep_foldl_error rest _
  unfold httpPost
  rw [hfold]

/-- C5 counterexample: the traversal name `..` passes the safety check
`filepath.Base(filename) == filename` of both handlers: the async entry
answers 200 with a job id (not a 400 rejection), and the sync entry
proceeds into execution — it performs a backing-file read and its 400
carries the read error, not the `Invalid filename` rejection. -/
theorem c5_traversal_name_passes_cex :
    validFilename ".." = true ∧
    (runLuaFileAsyncHandler emptyJobMap ".." (some []) "id-1").1 =
      .okBody "id-1" ∧
    (runLuaFileHandler (fun _ => none) (fun _ => none) ".." (some [])
        (fun _ _ => .ok [])).2.2 = 1 ∧
    (runLuaFileHandler (fun _ => none) (fun _ => none) ".." (some [])
        (fun _ _ => .ok [])).1 =
      .badRequest "open ..: no such file or directory" := by
  refine ⟨by decide, by decide, by decide, by decide⟩

/-- C5 amended: every request whose script name contains a path separator
— with the sole exception of the name `/` itself — is rejected with 400
`Invalid filename` before any execution starts, on both entry points,
leaving cache and job map untouched; the bare traversal names `..` and
`.` are not caught by the check and proceed to the execution path. -/
theorem c5_separator_names_rejected (cache : Cache) (fs : FS) (jobs : JobMap)
    (name id : String) (payload : Option (List (String × JValue)))
    (eval : EvalOracle) (hs : '/' ∈ name.data) (hne : name ≠ "/") :
    runLuaFileHandler cache fs name payload eval =
      (.badRequest "Invalid filename", cache, 0) ∧
    runLuaFileAsyncHandler jobs name payload id =
      (.badRequest "Invalid filename", jobs) := by
  have hv := validFilename_false_of_slash name hs hne
  constructor
  · simp [runLuaFileHandler, hv]
  · simp [runLuaFileAsyncHandler, hv]

/-- Witness for C5 (amended) at the concrete name `a/b`. -/
theorem c5_separator_names_rejected_witness :
    runLuaFileHandler (fun _ => none) (fun _ => none) "a/b" (some [])
      (fun _ _ => .ok []) = (.badRequest "Invalid filename", (fun _ => none), 0) ∧
    runLuaFileAsyncHandler emptyJobMap "a/b" (some []) "id-1" =
      (.badRequest "Invalid filename", emptyJobMap) :=
  c5_separator_names_rejected (fun _ => none) (fun _ => none) emptyJobMap
    "a/b" "id-1" (some []) (fun _ _ => .ok []) (by decide) (by decide)

theorem mapUpd_keeps_entry {α : Type} (m : String → Option α) (k id : String)
    (v : α) (h : ∃ st, m id = some st) : ∃ st, mapUpd m k v id = some st := by
  by_cases hid : id = k
  · exact ⟨v, by simp [mapUpd, hid]⟩
  · obtain ⟨st, hst⟩ := h
    exact ⟨st, by simp [mapUpd, hid, hst]⟩

theorem jobStep_keeps_entry (m m2 : JobMap) (id : String)
    (hstep : JobStep m m2) (h : ∃ st, m id = some st) :
    ∃ st, m2 id = some st := by
  cases hstep with
  | submit id2 => exact mapUpd_keeps_entry m id2 id _ h
  | setFinished id2 st2 h2 => exact mapUpd_keeps_entry m id2 id _ h
  | setResult id2 st2 r h2 => exact mapUpd_keeps_entry m id2 id _ h
  | setError id2 st2 e h2 => exact mapUpd_keeps_entry m id2 id _ h

theorem jobSteps_keep_entry (m m2 : JobMap) (id : String)
    (hsteps : Relation.ReflTransGen JobStep m m2)
    (h : ∃ st, m id = some st) : ∃ st, m2 id = some st := by
  induction hsteps with
  | refl => exact h
  | tail hprev hstep ih => exact jobStep_keeps_entry _ _ id hstep ih

/-- C6: the completion goroutine performs three separate, unsynchronized
field writes, `Finished` first (main.go lines 302-305); a `Poll`
interleaved between the `Finished` write and the `Result` write observes
the half-written record `finished:true, result:""` — not the atomic
snapshot the claim promises — and only a later poll sees the real
result. -/
theorem c6_poll_observes_partial_write :
    JobStep (submitJob emptyJobMap "job-1")
      (mapUpd (submitJob emptyJobMap "job-1") "job-1" ⟨true, "", none⟩) ∧
    pollJob (mapUpd (submitJob emptyJobMap "job-1") "job-1" ⟨true, "", none⟩)
      "job-1" = .done "" none ∧
    JobStep (mapUpd (submitJob emptyJobMap "job-1") "job-1" ⟨true, "", none⟩)
      (mapUpd (mapUpd (submitJob emptyJobMap "job-1") "job-1" ⟨true, "", none⟩)
        "job-1" ⟨true, "script output", none⟩) ∧
    pollJob (mapUpd (mapUpd (submitJob emptyJobMap "job-1") "job-1"
        ⟨true, "", none⟩) "job-1" ⟨true, "script output", none⟩) "job-1" =
      .done "script output" none ∧
    PollResponse.done "" none ≠ .done "script output" none := by
  refine ⟨?_, by decide, ?_, by decide, by decide⟩
  · exact JobStep.setFinished _ "job-1" ⟨false, "", none⟩ (by decide)
  · exact JobStep.setResult _ "job-1" ⟨true, "", none⟩ "script output" (by decide)

/-- C7: the async handler records the fresh job as pending before it
returns the id (main.go lines 294-310): the response carries the id, an
immediate poll of it answers `finished:false`, and since no transition of
the job map ever deletes an entry, a poll of that id never answers 404
afterwards, whatever submissions and completions run in between. -/
theorem c7_submit_pending_before_return (jobs : JobMap) (name id : String)
    (data : List (String × JValue)) (hvalid : validFilename name = true) :
    (runLuaFileAsyncHandler jobs name (some data) id).1 = .okBody id ∧
    pollJob (runLuaFileAsyncHandler jobs name (some data) id).2 id = .pending ∧
    ∀ m2 : JobMap,
      Relation.ReflTransGen JobStep
        (runLuaFileAsyncHandler jobs name (some data) id).2 m2 →
      pollJob m2 id ≠ .notFound := by
  have hh : runLuaFileAsyncHandler jobs name (some data) id =
      (.okBody id, submitJob jobs id) := by
    simp [runLuaFileAsyncHandler, hvalid]
  rw [hh]
  refine ⟨rfl, by simp [pollJob, submitJob, mapUpd], ?_⟩
  intro m2 hsteps
  have hdef : ∃ st, m2 id = some st := by
    refine jobSteps_keep_entry _ _ id hsteps ?_
    exact ⟨⟨false, "", none⟩, by simp [submitJob, mapUpd]⟩
  obtain ⟨st, hst⟩ := hdef
  simp only [pollJob, hst]
  cases st.finished <;> simp

/-- Witness for C7 with a fresh job map, the name `test.lua` and id
`id-1`; the trace of later transitions is taken empty. -/
theorem c7_submit_pending_witness :
    (runLuaFileAsyncHandler emptyJobMap "test.lua" (some []) "id-1").1 =
      .okBody "id-1" ∧
    pollJob (runLuaFileAsyncHandler emptyJobMap "test.lua" (some []) "id-1").2
      "id-1" = .pending ∧
    pollJob (runLuaFileAsyncHandler emptyJobMap "test.lua" (some []) "id-1").2
      "id-1" ≠ .notFound := by
  obtain ⟨h1, h2, h3⟩ :=
    c7_submit_pending_before_return emptyJobMap "test.lua" "id-1" [] (by decide)
  exact ⟨h1, h2, h3 _ Relation.ReflTransGen.refl⟩

/-- C9: the per-client bucket `rate.NewLimiter(1, 3)` is a token bucket
with capacity 3 and refill 1 token/second, full on first sight: three
immediate `Allow` calls from a fresh client succeed, consuming one token
each, a fourth at the same instant is denied, and any further call at
least one second later succeeds; moreover every allowed call consumes
exactly one token off the refilled count, and the token count stays in
`[0, burst]`. -/
theorem c9_token_bucket (t0 : ℚ) :
    allow (addVisitor t0) t0 = (true, ⟨1, 3, 2, t0⟩) ∧
    allow ⟨1, 3, 2, t0⟩ t0 = (true, ⟨1, 3, 1, t0⟩) ∧
    allow ⟨1, 3, 1, t0⟩ t0 = (true, ⟨1, 3, 0, t0⟩) ∧
    allow ⟨1, 3, 0, t0⟩ t0 = (false, ⟨1, 3, 0, t0⟩) ∧
    (∀ now : ℚ, t0 + 1 ≤ now → (allow ⟨1, 3, 0, t0⟩ now).1 = true) ∧
    (∀ (l : GoLimiter) (now : ℚ), 0 ≤ l.limit → 0 ≤ l.tokens →
      l.tokens ≤ l.burst → l.last ≤ now →
      ((allow l now).1 = true →
        (allow l now).2.tokens = advanceTokens l now - 1) ∧
      0 ≤ (allow l now).2.tokens ∧ (allow l now).2.tokens ≤ l.burst) := by
  have hadv : ∀ x : ℚ, 0 ≤ x → x ≤ 3 →
      advanceTokens ⟨1, 3, x, t0⟩ t0 = x := by
    intro x hx0 hx3
    unfold advanceTokens
    simp only
    rw [sub_self, zero_mul, add_zero]
    exact min_eq_right hx3
  have e1 : allow (addVisitor t0) t0 = (true, ⟨1, 3, 2, t0⟩) := by
    unfold allow addVisitor
    rw [show advanceTokens ⟨1, 3, 3, t0⟩ t0 = 3 from hadv 3 (by norm_num) (by norm_num)]
    norm_num
  have e2 : allow ⟨1, 3, 2, t0⟩ t0 = (true, ⟨1, 3, 1, t0⟩) := by
    unfold allow
    rw [hadv 2 (by norm_num) (by norm_num)]
    norm_num
  have e3 : allow ⟨1, 3, 1, t0⟩ t0 = (true, ⟨1, 3, 0, t0⟩) := by
    unfold allow
    rw [hadv 1 (by norm_num) (by norm_num)]
    norm_num
  have e4 : allow ⟨1, 3, 0, t0⟩ t0 = (false, ⟨1, 3, 0, t0⟩) := by
    unfold allow
    rw [hadv 0 (by norm_num) (by norm_num)]
    norm_num
  have e5 : ∀ now : ℚ, t0 + 1 ≤ now → (allow ⟨1, 3, 0, t0⟩ now).1 = true := by
    intro now hnow
    have hge : (1 : ℚ) ≤ advanceTokens ⟨1, 3, 0, t0⟩ now := by
      unfold advanceTokens
      simp only
      rw [zero_add, mul_one]
      exact le_min (by norm_num) (by linarith)
    unfold allow
    rw [if_pos hge]
  refine ⟨e1, e2, e3, e4, e5, ?_⟩
  intro l now hlim htok htb hlast
  have htub : advanceTokens l now ≤ l.burst := min_le_left _ _
  have htnn : 0 ≤ advanceTokens l now := by
    have h1 : 0 ≤ (now - l.last) * l.limit :=
      mul_nonneg (by linarith) hlim
    have h2 : 0 ≤ l.burst := le_trans htok htb
    unfold advanceTokens
    exact le_min h2 (by linarith)
  by_cases hge : (1 : ℚ) ≤ advanceTokens l now
  · have ha : allow l now =
        (true, ⟨l.limit, l.burst, advanceTokens l now - 1, now⟩) := by
      unfold allow
      rw [if_pos hge]
    rw [ha]
    refine ⟨fun _ => rfl, ?_, ?_⟩
    · simp only
      linarith
    · simp only
      linarith
  · have ha : allow l now = (false, l) := by
      unfold allow
      rw [if_neg hge]
    rw [ha]
    exact ⟨fun hc => by simp at hc, htok, htb⟩

/-- Witness for C9 at first-sight time 0, with the consumption and bound
facts instantiated at the limiter holding 2 tokens. -/
theorem c9_token_bucket_witness :
    allow (addVisitor 0) 0 = (true, ⟨1, 3, 2, 0⟩) ∧
    ((allow ⟨1, 3, 2, 0⟩ 0).1 = true →
      (allow ⟨1, 3, 2, 0⟩ 0).2.tokens = advanceTokens ⟨1, 3, 2, 0⟩ 0 - 1) ∧
    0 ≤ (allow ⟨1, 3, 2, 0⟩ 0).2.tokens ∧
    (allow ⟨1, 3, 2, 0⟩ 0).2.tokens ≤ (3 : ℚ) := by
  obtain ⟨e1, _, _, _, _, inv⟩ := c9_token_bucket 0
  obtain ⟨i1, i2, i3⟩ := inv ⟨1, 3, 2, 0⟩ 0
    (by norm_num) (by norm_num) (by norm_num) (by norm_num)
  exact ⟨e1, i1, i2, i3⟩

theorem foldl_headerSet_canon_not_mem (t : HeaderTable)
    (h0 : String → Option String) (q : String) (h : q ∉ canonTblKeys t) :
    t.foldl (fun h kv => headerSet h kv.1 kv.2) h0 q = h0 q := by
  induction t generalizing h0 with
  | nil => rfl
  | cons kv rest ih =>
    obtain ⟨k0, v0⟩ := kv
    simp only [canonTblKeys, List.map_cons, List.mem_cons] at h
    push_neg at h
    obtain ⟨hk, hr⟩ := h
    rw [List.foldl_cons, ih _ hr]
    simp [headerSet, hk]

theorem foldl_headerSet_canon_mem (t : HeaderTable) (k v : String)
    (hnd : (canonTblKeys t).Nodup) (hmem : (k, v) ∈ t) :
    ∀ h0 : String → Option String,
      t.foldl (fun h kv => headerSet h kv.1 kv.2) h0
        (canonicalMIMEHeaderKey k) = some v := by
  induction t with
  | nil => simp at hmem
  | cons kv0 rest ih =>
    intro h0
    obtain ⟨k0, v0⟩ := kv0
    simp only [canonTblKeys, List.map_cons, List.nodup_cons] at hnd
    obtain ⟨hk0, hrest⟩ := hnd
    rw [List.mem_cons] at hmem
    rw [List.foldl_cons]
    rcases hmem with heq | hmem2
    · injection heq with hk hv
      subst hk
      subst hv
      rw [foldl_headerSet_canon_not_mem rest _ _ hk0]
      simp [headerSet]
    · exact ih hrest hmem2 _

/-- C10 counterexample: `req.Header.Set` stores each key in its MIME
canonical form, while the Lua `headers` table is case-sensitive.  After
`setHeader("x-a", "1")` the table holds the key `x-a` but the GET request
holds the header `X-A` — the request's header set does not equal the
table's contents; and the case-variant keys `x-a` and `X-A` are two table
entries that collapse into the single request header `X-A`. -/
theorem c10_canonicalization_cex :
    buildRequestHeaders (applySetHeaders [("x-a", "1")]) "x-a" = none ∧
    tblLookup (applySetHeaders [("x-a", "1")]) "x-a" = some "1" ∧
    buildRequestHeaders (applySetHeaders [("x-a", "1")]) "X-A" = some "1" ∧
    tblLookup (applySetHeaders [("x-a", "1")]) "X-A" = none ∧
    tblKeys (applySetHeaders [("x-a", "1"), ("X-A", "2")]) = ["x-a", "X-A"] ∧
    buildRequestHeaders (applySetHeaders [("x-a", "1"), ("X-A", "2")])
      "X-A" = some "2" ∧
    buildRequestHeaders (applySetHeaders [("x-a", "1"), ("X-A", "2")])
      "x-a" = none := by
  refine ⟨by decide, by decide, by decide, by decide, by decide, by decide,
    by decide⟩

/-- C10 amended: every header recorded via `setHeader` is attached to
every subsequent `httpGet` request under the MIME-canonical form of its
name — so the header set is live request metadata, not advisory response
metadata — and the request carries no header beyond the canonical images
of the table's entries.  When the table's keys are distinct under
canonicalization the request header at `CanonicalMIMEHeaderKey(k)` is
exactly the table's value at `k`; case-variant keys collapse into one
canonical request header instead of appearing verbatim. -/
theorem c10_headers_attached_canonical (ops : List (String × String)) :
    ((canonTblKeys (applySetHeaders ops)).Nodup →
      ∀ k v, (k, v) ∈ applySetHeaders ops →
        buildRequestHeaders (applySetHeaders ops)
          (canonicalMIMEHeaderKey k) = some v) ∧
    (∀ q, q ∉ canonTblKeys (applySetHeaders ops) →
      buildRequestHeaders (applySetHeaders ops) q = none) := by
  constructor
  · intro hnd k v hmem
    exact foldl_headerSet_canon_mem (applySetHeaders ops) k v hnd hmem _
  · intro q hq
    exact foldl_headerSet_canon_not_mem (applySetHeaders ops) _ q hq

/-- Witness for C10 (amended): after `setHeader("x-a", "1")` the GET
request carries `X-A: 1` and nothing under any other name. -/
theorem c10_headers_attached_witness :
    buildRequestHeaders (applySetHeaders [("x-a", "1")])
      (canonicalMIMEHeaderKey "x-a") = some "1" ∧
    buildRequestHeaders (applySetHeaders [("x-a", "1")]) "Other" = none := by
  obtain ⟨h1, h2⟩ := c10_headers_attached_canonical [("x-a", "1")]
  exact ⟨h1 (by decide) "x-a" "1" (by decide), h2 "Other" (by decide)⟩

end GinLua
